import Mathlib

/-!
Verification of the gas-concentration / sensor-signal pipeline of the
sensorDataAnalyzer repository.

The definitions below are a shallow embedding of the JavaScript sources:

* `calculateGasConcVsTime`, `identifyGasExposureEvents`,
  `interpolateGasConcentration` embed `src/utils/gasCalculations.js`;
* `processFile` / `processAllTimeSeriesFiles` embed the per-file sensor
  processing of `processAllTimeSeriesFiles` in
  `src/services/timeSeriesAnalysisService.js`.

Modelling conventions:
* JavaScript numbers are modelled as rationals (`ℚ`).
* The `NaN` ("undefined") sentinel is modelled by `Option` (`none` = NaN);
  a field that the code may set to `NaN` has an `Option` type.
* JavaScript `Infinity` (produced by the zero-total-flowrate branch of the
  profile builder) is modelled by `⊤` in `WithTop ℚ`.
* A configuration field whose value is absent or fails the
  `typeof x === 'number'` test is modelled as `none`.
-/

section SensorDataAnalyzer

/- The Batteries rational-number operations are sealed; re-open them so that
concrete runs of the embedded functions can be evaluated by `decide`. -/
attribute [local semireducible] Rat.mul Rat.add Rat.sub Rat.inv

/-- JavaScript concentration values: a rational, or `⊤` for `Infinity`. -/
abbrev Conc := WithTop ℚ

/-- One point of the gas-concentration profile: `{ time_min, conc }`
(`gasCalculations.js`). -/
structure ConcPoint where
  time_min : ℚ
  conc : Conc
deriving DecidableEq

/-- One input step of the gas-flow table:
`{ targetGasFlow, durationSeconds }`. -/
structure FlowStep where
  targetGasFlow : ℚ
  durationSeconds : ℚ
deriving DecidableEq

/-- The configuration slice read by `calculateGasConcVsTime`; a field is
`none` when it is absent or not a number (`typeof` test, lines 17-18). -/
structure Config where
  totalFlowrate : Option ℚ
  gasConcCyl2 : Option ℚ
deriving DecidableEq

/-- The new concentration computed for a step
(`gasCalculations.js` lines 34-38). -/
def stepConc (totalFlowrate gasConcCyl2 : ℚ) (step : FlowStep) : Conc :=
  if totalFlowrate = 0 then
    if 0 < gasConcCyl2 ∧ 0 < step.targetGasFlow then ⊤ else ((0 : ℚ) : Conc)
  else ((gasConcCyl2 * step.targetGasFlow / totalFlowrate : ℚ) : Conc)

/-- Point 1 of the loop body (`gasCalculations.js` lines 43-54): close the
previous concentration period.  The accumulator is kept newest-first, so the
JavaScript `calculatedProfile[calculatedProfile.length - 1]` is `acc.head?`. -/
def point1Push (acc : List ConcPoint) (tMin : ℚ) (prev : Conc) : List ConcPoint :=
  match acc.head? with
  | none => ⟨tMin, prev⟩ :: acc
  | some h =>
    if h.time_min < tMin ∨ (h.time_min = tMin ∧ h.conc ≠ prev) then
      -- inner guard of lines 49-53 (kept for fidelity; it never fires when
      -- the outer condition holds)
      if h.time_min = tMin ∧ h.conc = prev then acc
      else ⟨tMin, prev⟩ :: acc
    else acc

/-- The loop of `calculateGasConcVsTime` (`gasCalculations.js` lines 29-80).
The profile accumulator is newest-first and is reversed by the caller. -/
def buildLoop (totalFlowrate gasConcCyl2 : ℚ) :
    List FlowStep → ℚ → Conc → List ConcPoint → List ConcPoint
  | [], _, _, acc => acc
  | step :: rest, tSec, cur, acc =>
    let prev := cur
    let newCur := stepConc totalFlowrate gasConcCyl2 step
    let acc1 := point1Push acc (tSec / 60) prev
    let acc2 :=
      if newCur ≠ prev then ⟨tSec / 60 + 1/60, newCur⟩ :: acc1
      else match acc1.head? with
        | some h => if h.conc ≠ newCur then ⟨tSec / 60 + 1/60, newCur⟩ :: acc1 else acc1
        | none => acc1   -- unreachable: the accumulator always holds the initial point
    let tSec' := tSec + step.durationSeconds
    buildLoop totalFlowrate gasConcCyl2 rest tSec' newCur (⟨tSec' / 60, newCur⟩ :: acc2)

/-- The deduplication pass (`gasCalculations.js` lines 87-92): element `k` is
kept iff it differs from element `k-1` of the *original* list. -/
def dedupAux (prev : ConcPoint) : List ConcPoint → List ConcPoint
  | [] => []
  | y :: ys =>
    if y.time_min = prev.time_min ∧ y.conc = prev.conc then dedupAux y ys
    else y :: dedupAux y ys

/-- The deduplication pass (`gasCalculations.js` lines 84-93). -/
def dedupProfile : List ConcPoint → List ConcPoint
  | [] => []
  | x :: xs => x :: dedupAux x xs

/-- The final `(0,0)`-start guarantee (`gasCalculations.js` lines 95-105). -/
def ensureStartsAtZero (l : List ConcPoint) : List ConcPoint :=
  match l with
  | [] => [⟨0, 0⟩]
  | x :: xs =>
    if x.time_min ≠ 0 ∨ x.conc ≠ 0 then
      -- unshift (0,0), then drop it again if it duplicated the head
      if (0 : ℚ) = x.time_min ∧ (0 : Conc) = x.conc then x :: xs
      else ⟨0, 0⟩ :: x :: xs
    else x :: xs

/-- Embeds `calculateGasConcVsTime(gasFlowData, config)`
(`src/utils/gasCalculations.js` lines 11-109). -/
def calculateGasConcVsTime (gasFlowData : List FlowStep) (config : Option Config) :
    List ConcPoint :=
  let totalFlowrate : ℚ := match config with
    | some c => c.totalFlowrate.getD 500
    | none => 500
  let gasConcCyl2 : ℚ := match config with
    | some c => c.gasConcCyl2.getD 0
    | none => 0
  match gasFlowData with
  | [] => [⟨0, 0⟩]
  | _ =>
    let calculated :=
      (buildLoop totalFlowrate gasConcCyl2 gasFlowData 0 0 [⟨0, 0⟩]).reverse
    ensureStartsAtZero (dedupProfile calculated)

/-- One gas-exposure event: `{ startTime, concentration, endTime }`. -/
structure ExposureEvent where
  startTime : ℚ
  concentration : Conc
  endTime : ℚ
deriving DecidableEq

/-- One step of the scanner loop of `identifyGasExposureEvents`
(`gasCalculations.js` lines 124-158).  State: events pushed so far and the
active event, if any. -/
def identifyStep (st : List ExposureEvent × Option ExposureEvent) (point : ConcPoint) :
    List ExposureEvent × Option ExposureEvent :=
  match st.2 with
  | none =>
    if 0 < point.conc then
      (st.1, some ⟨point.time_min, point.conc, point.time_min⟩)
    else (st.1, none)
  | some ae =>
    if point.conc = ae.concentration ∧ ae.endTime < point.time_min then
      (st.1, some { ae with endTime := point.time_min })
    else if point.conc ≠ ae.concentration ∨ point.time_min ≤ ae.endTime then
      let evs := if ae.startTime < ae.endTime then st.1 ++ [ae] else st.1
      if 0 < point.conc then
        (evs, some ⟨point.time_min, point.conc, point.time_min⟩)
      else (evs, none)
    else (st.1, some ae)   -- unreachable: the two conditions are exhaustive

/-- Embeds `identifyGasExposureEvents(gasConcProfile)`
(`src/utils/gasCalculations.js` lines 118-178). -/
def identifyGasExposureEvents (gasConcProfile : List ConcPoint) : List ExposureEvent :=
  match gasConcProfile with
  | [] => []
  | _ =>
    let st := gasConcProfile.foldl identifyStep ([], none)
    match st.2 with
    | none => st.1
    | some ae =>
      if ae.startTime < ae.endTime then
        let alreadyAdded : Bool :=
          match st.1.getLast? with
          | some lastPushed =>
            decide (lastPushed.startTime = ae.startTime ∧
              lastPushed.concentration = ae.concentration ∧
              lastPushed.endTime = ae.endTime)
          | none => false
        if alreadyAdded then st.1 else st.1 ++ [ae]
      else st.1

/-- The scanning loop of `interpolateGasConcentration`
(`gasCalculations.js` lines 197-204): update the result while `time_min ≤ t`,
stop at the first later point. -/
def interpLoop (resultConc : Conc) : List ConcPoint → ℚ → Conc
  | [], _ => resultConc
  | p :: rest, t => if p.time_min ≤ t then interpLoop p.conc rest t else resultConc

/-- Embeds `interpolateGasConcentration(concProfile, targetTimeMin)`
(`src/utils/gasCalculations.js` lines 187-206).  The query time and result
are `Option`s because both may be `NaN`. -/
def interpolateGasConcentration (concProfile : List ConcPoint)
    (targetTimeMin : Option ℚ) : Option Conc :=
  match targetTimeMin with
  | none => none
  | some t =>
    match concProfile with
    | [] => none
    | p0 :: _ =>
      if t < p0.time_min then some p0.conc
      else some (interpLoop p0.conc concProfile t)

/-! ### Sensor-file processing (`timeSeriesAnalysisService.js`) -/

/-- One raw CSV row of a sensor file, after external parsing: either it has
fewer columns than `minRequiredCols` (= 9), or it carries the parse results
of column 0 (timestamp, in epoch milliseconds, `none` when
`parseCustomDateTime` fails), column 7 (impedance) and column 8 (phase),
`none` standing for a failed numeric parse. -/
inductive RawRow where
  | short : RawRow
  | full (timestampMs : Option ℚ) (impedance : Option ℚ) (phase : Option ℚ) : RawRow
deriving DecidableEq

/-- One processed sensor reading (`timeSeriesAnalysisService.js`
lines 184-212): every numeric field may be the `NaN` sentinel. -/
structure SensorReading where
  time_s : Option ℚ
  time_min : Option ℚ
  impedance : Option ℚ
  phase : Option ℚ
  signal : Option ℚ
  gas_concentration : Option Conc
deriving DecidableEq

/-- A reading whose every field is the `NaN` sentinel (what a short row is
recorded as, lines 185-192). -/
def blankReading : SensorReading := ⟨none, none, none, none, none, none⟩

/-- The file's zero-time anchor `t0` (lines 176-178): the timestamp of the
first row.  (The caller has already rejected empty files and files whose
first row is short.) -/
def fileT0 (rows : List RawRow) : Option ℚ :=
  match rows with
  | RawRow.full ts _ _ :: _ => ts
  | _ => none

/-- The map of lines 184-212 applied to one row: relative time in seconds
and minutes, parsed impedance and phase; `signal` and `gas_concentration`
start as the sentinel. -/
def mkReading (t0 : Option ℚ) (row : RawRow) : SensorReading :=
  match row with
  | RawRow.short => blankReading
  | RawRow.full ts imp ph =>
    let rel_s : Option ℚ :=
      match ts, t0 with
      | some a, some b => some ((a - b) / 1000)
      | _, _ => none
    { time_s := rel_s
      time_min := rel_s.map (fun s => s / 60)
      impedance := imp
      phase := ph
      signal := none
      gas_concentration := none }

/-- Embeds the `processedTable` construction of lines 184-212. -/
def mkProcessedTable (rows : List RawRow) : List SensorReading :=
  rows.map (mkReading (fileT0 rows))

/-- The filter predicate of line 217: a defined `time_min` at or before the
reference time. -/
def isSuitableRef (refTimeMinutes : ℚ) (r : SensorReading) : Bool :=
  match r.time_min with
  | some t => decide (t ≤ refTimeMinutes)
  | none => false

/-- The baseline row selected by lines 215-227: the last suitable row, else
the first row provided its `time_min` is defined, else nothing. -/
def chosenBaselineRow (table : List SensorReading) (refTimeMinutes : ℚ) :
    Option SensorReading :=
  match (table.filter (isSuitableRef refTimeMinutes)).getLast? with
  | some r => some r
  | none =>
    match table with
    | [] => none
    | r0 :: _ => if r0.time_min.isSome then some r0 else none

/-- Embeds `imp_ref` of lines 229-231: the chosen row's impedance (the sentinel when
there is no chosen row or its impedance is the sentinel). -/
def impRef (table : List SensorReading) (refTimeMinutes : ℚ) : Option ℚ :=
  (chosenBaselineRow table refTimeMinutes).bind SensorReading.impedance

/-- The per-row finalization of lines 238-255: signal computation, outlier
suppression, gas-concentration annotation. -/
def finalizeReading (iref : Option ℚ) (gasConcProfile : List ConcPoint)
    (gasConcAvailable : Bool) (r : SensorReading) : SensorReading :=
  let signal0 : Option ℚ :=
    match iref, r.impedance with
    | some b, some v => if b ≠ 0 then some ((v - b) / b * 100) else none
    | _, _ => none
  let impedance1 : Option ℚ :=
    match r.impedance with
    | some v => if (1000000000000 : ℚ) < v then none else some v
    | none => none
  let signal1 : Option ℚ :=
    match signal0 with
    | some s => if (10000 : ℚ) < |s| then none else some s
    | none => none
  let gas : Option Conc :=
    if gasConcAvailable && !gasConcProfile.isEmpty && r.time_min.isSome then
      interpolateGasConcentration gasConcProfile r.time_min
    else none
  { r with impedance := impedance1, signal := signal1, gas_concentration := gas }

/-- Processing of a single sensor file (`timeSeriesAnalysisService.js`
lines 142-265): `none` when the file is skipped (empty, or first row with
insufficient columns), otherwise the processed table. -/
def processFile (rows : List RawRow) (refTimeMinutes : ℚ)
    (gasConcProfile : List ConcPoint) (gasConcAvailable : Bool) :
    Option (List SensorReading) :=
  match rows with
  | [] => none
  | RawRow.short :: _ => none
  | RawRow.full _ _ _ :: _ =>
    let table := mkProcessedTable rows
    let iref := impRef table refTimeMinutes
    some (table.map (finalizeReading iref gasConcProfile gasConcAvailable))

/-- Embeds the loop of `processAllTimeSeriesFiles` over the sensor files; skipped
files contribute nothing to the result list. -/
def processAllTimeSeriesFiles (files : List (List RawRow)) (refTimeMinutes : ℚ)
    (gasConcProfile : List ConcPoint) (gasConcAvailable : Bool) :
    List (List SensorReading) :=
  files.filterMap (fun rows => processFile rows refTimeMinutes gasConcProfile gasConcAvailable)

/-! ### Reference definitions taken from the specification's words -/

/-- Reference sampler, following the spec's words for `ProfileSampler`
(spec §4.3): sentinel for a sentinel query or an empty profile; the first
point's concentration before the first point; otherwise the concentration of
the last point whose time is ≤ `t`. -/
def specSampler (profile : List ConcPoint) (t? : Option ℚ) : Option Conc :=
  match t? with
  | none => none
  | some t =>
    match profile with
    | [] => none
    | p0 :: _ =>
      if t < p0.time_min then some p0.conc
      else
        match (profile.filter (fun p => decide (p.time_min ≤ t))).getLast? with
        | some q => some q.conc
        | none => none

/-- Reference baseline choice, following the spec's words (spec §4.4 step 3):
the last row with a defined `time_min` at or before the reference time; if
none qualifies, the first row with a defined `time_min`. -/
def specBaselineRow (table : List SensorReading) (refTimeMinutes : ℚ) :
    Option SensorReading :=
  match (table.filter (isSuitableRef refTimeMinutes)).getLast? with
  | some r => some r
  | none => table.find? (fun r => r.time_min.isSome)

/-- The per-row signal value asserted by the (amended) claim C6: the
percentage formula when the row's parsed impedance and the baseline are both
defined, the baseline is nonzero, and the formula's value passes the
`|signal| ≤ 1e4` outlier filter; the sentinel otherwise. -/
def expectedSignal (iref : Option ℚ) (raw : RawRow) : Option ℚ :=
  match raw, iref with
  | RawRow.full _ (some v) _, some b =>
    if b ≠ 0 ∧ |(v - b) / b * 100| ≤ 10000 then some ((v - b) / b * 100) else none
  | _, _ => none

/-- The impedance value kept by the outlier filter as the code actually
applies it (amended claim C7): only values *greater than* `1e12` are
suppressed; the magnitude of negative values is never tested. -/
def expectedImpedance (raw : RawRow) : Option ℚ :=
  match raw with
  | RawRow.full _ (some v) _ => if (1000000000000 : ℚ) < v then none else some v
  | _ => none

/-! ### Profile order predicates -/

/-- The profile's `time_min` values are non-decreasing. -/
def timesNonDecr (l : List ConcPoint) : Prop :=
  List.Chain' (fun a b => a.time_min ≤ b.time_min) l

/-- No two consecutive profile points agree in both fields. -/
def noConsecDup (l : List ConcPoint) : Prop :=
  List.Chain' (fun a b => ¬(a.time_min = b.time_min ∧ a.conc = b.conc)) l

/-- The profile's `time_min` values are strictly increasing. -/
def timesStrict (l : List ConcPoint) : Prop :=
  List.Chain' (fun a b => a.time_min < b.time_min) l

/-! ### Lemmas about the sampler -/

lemma chain'_lt_pairwise (l : List ConcPoint) (h : timesStrict l) :
    List.Pairwise (fun a b => a.time_min < b.time_min) l := by
  haveI : IsTrans ConcPoint (fun a b => a.time_min < b.time_min) :=
    ⟨fun _ _ _ h1 h2 => lt_trans h1 h2⟩
  exact List.chain'_iff_pairwise.mp h

lemma interpLoop_filter (l : List ConcPoint) (r0 : Conc) (t : ℚ)
    (h : List.Pairwise (fun a b => a.time_min ≤ b.time_min) l) :
    interpLoop r0 l t =
      match (l.filter (fun p => decide (p.time_min ≤ t))).getLast? with
      | some q => q.conc
      | none => r0 := by
  induction l generalizing r0 with
  | nil => simp [interpLoop]
  | cons q qs ih =>
    rcases List.pairwise_cons.mp h with ⟨hq, hqs⟩
    by_cases hle : q.time_min ≤ t
    · rw [interpLoop, if_pos hle, ih q.conc hqs]
      have hfq : (q :: qs).filter (fun p => decide (p.time_min ≤ t)) =
          q :: qs.filter (fun p => decide (p.time_min ≤ t)) := by
        simp [List.filter_cons, hle]
      rw [hfq]
      rcases hrest : qs.filter (fun p => decide (p.time_min ≤ t)) with _ | ⟨y, ys⟩
      · rw [hrest, List.getLast?_nil, List.getLast?_singleton]
      · rw [hrest, List.getLast?_cons_cons]
        cases hg : (y :: ys).getLast? with
        | none => exact absurd hg (by simp)
        | some z => rfl
    · rw [interpLoop, if_neg hle]
      have hfil : (q :: qs).filter (fun p => decide (p.time_min ≤ t)) = [] := by
        rw [List.filter_eq_nil_iff]
        intro a ha
        rcases List.mem_cons.mp ha with rfl | ha
        · simpa using hle
        · have : q.time_min ≤ a.time_min := hq a ha
          simp only [decide_eq_true_eq]
          exact fun hc => hle (le_trans this hc)
      rw [hfil, List.getLast?_nil]

lemma interpLoop_mem (l : List ConcPoint) (r0 : Conc) (p : ConcPoint)
    (hl : List.Pairwise (fun a b => a.time_min < b.time_min) l) (hp : p ∈ l) :
    interpLoop r0 l p.time_min = p.conc := by
  induction l generalizing r0 with
  | nil => cases hp
  | cons q qs ih =>
    rcases List.pairwise_cons.mp hl with ⟨hq, hqs⟩
    rcases List.mem_cons.mp hp with rfl | hp
    · rw [interpLoop, if_pos (le_refl _)]
      cases qs with
      | nil => rfl
      | cons y ys =>
        have : ¬ y.time_min ≤ p.time_min := not_le.mpr (hq y (List.mem_cons_self y ys))
        rw [interpLoop, if_neg this]
    · have hlt : q.time_min < p.time_min := hq p hp
      rw [interpLoop, if_pos (le_of_lt hlt)]
      exact ih q.conc hqs hp

lemma roundTrip_of_timesStrict (l : List ConcPoint) (h : timesStrict l)
    (p : ConcPoint) (hp : p ∈ l) :
    interpolateGasConcentration l (some p.time_min) = some p.conc := by
  have hpw := chain'_lt_pairwise l h
  cases l with
  | nil => cases hp
  | cons q qs =>
    have hnl : ¬ p.time_min < q.time_min := by
      rcases List.mem_cons.mp hp with rfl | hp
      · exact lt_irrefl _
      · exact not_lt.mpr (le_of_lt ((List.pairwise_cons.mp hpw).1 p hp))
    rw [interpolateGasConcentration]
    rw [if_neg hnl]
    rw [interpLoop_mem (q :: qs) q.conc p hpw hp]

/-! ### Lemmas about the profile builder -/

lemma point1Push_eq_self (acc : List ConcPoint) (t : ℚ) (c : Conc)
    (h : acc.head? = some ⟨t, c⟩) : point1Push acc t c = acc := by
  unfold point1Push
  rw [h]
  simp

lemma point1Push_sub (acc : List ConcPoint) (t : ℚ) (c : Conc) :
    ∃ pre, point1Push acc t c = pre ++ acc := by
  unfold point1Push
  cases acc.head? with
  | none => exact ⟨[⟨t, c⟩], rfl⟩
  | some h =>
    dsimp only
    split
    · split
      · exact ⟨[], rfl⟩
      · exact ⟨[⟨t, c⟩], rfl⟩
    · exact ⟨[], rfl⟩

lemma buildLoop_sub (tf gc : ℚ) (steps : List FlowStep) :
    ∀ (tSec : ℚ) (cur : Conc) (acc : List ConcPoint),
      ∃ pre, buildLoop tf gc steps tSec cur acc = pre ++ acc := by
  induction steps with
  | nil => exact fun _ _ acc => ⟨[], rfl⟩
  | cons s rest ih =>
    intro tSec cur acc
    simp only [buildLoop]
    obtain ⟨pre1, h1⟩ := point1Push_sub acc (tSec / 60) cur
    rw [h1]
    set newCur := stepConc tf gc s with hnc
    have h2 : ∃ pre2, (if newCur ≠ cur then ⟨tSec / 60 + 1/60, newCur⟩ :: (pre1 ++ acc)
        else match (pre1 ++ acc).head? with
          | some h => if h.conc ≠ newCur then ⟨tSec / 60 + 1/60, newCur⟩ :: (pre1 ++ acc)
                      else pre1 ++ acc
          | none => pre1 ++ acc) = pre2 ++ acc := by
      split
      · exact ⟨⟨tSec / 60 + 1/60, newCur⟩ :: pre1, rfl⟩
      · cases (pre1 ++ acc).head? with
        | none => exact ⟨pre1, rfl⟩
        | some h =>
          dsimp only
          split
          · exact ⟨⟨tSec / 60 + 1/60, newCur⟩ :: pre1, rfl⟩
          · exact ⟨pre1, rfl⟩
    obtain ⟨pre2, h2⟩ := h2
    rw [h2]
    obtain ⟨pre3, h3⟩ :=
      ih (tSec + s.durationSeconds) newCur (⟨(tSec + s.durationSeconds) / 60, newCur⟩ :: pre2 ++ acc)
    rw [List.cons_append] at h3
    rw [h3]
    exact ⟨pre3 ++ ⟨(tSec + s.durationSeconds) / 60, newCur⟩ :: pre2, by
      rw [List.append_assoc, List.cons_append]⟩

lemma buildLoop_chain (tf gc : ℚ) (steps : List FlowStep) :
    (∀ s ∈ steps, 1 ≤ s.durationSeconds) →
    ∀ (tSec : ℚ) (cur : Conc) (acc : List ConcPoint),
      List.Chain' (fun a b => b.time_min < a.time_min ∨ b = a) acc →
      acc.head? = some ⟨tSec / 60, cur⟩ →
      List.Chain' (fun a b => b.time_min < a.time_min ∨ b = a)
        (buildLoop tf gc steps tSec cur acc) := by
  induction steps with
  | nil => exact fun _ _ _ _ hch _ => hch
  | cons s rest ih =>
    intro hdur tSec cur acc hch hhead
    have hd : 1 ≤ s.durationSeconds := hdur s (List.mem_cons_self s rest)
    have hrest : ∀ x ∈ rest, 1 ≤ x.durationSeconds :=
      fun x hx => hdur x (List.mem_cons_of_mem s hx)
    simp only [buildLoop]
    rw [point1Push_eq_self acc (tSec / 60) cur hhead]
    by_cases hne : stepConc tf gc s = cur
    · rw [if_neg (fun hc => hc hne), hhead]
      dsimp only
      rw [if_neg (fun hc => hc hne.symm)]
      apply ih hrest (tSec + s.durationSeconds) (stepConc tf gc s)
      · refine List.chain'_cons'.mpr ⟨?_, hch⟩
        intro b hb
        rw [hhead, Option.mem_some_iff] at hb
        subst hb
        left
        show tSec / 60 < (tSec + s.durationSeconds) / 60
        linarith
      · rfl
    · rw [if_pos hne]
      apply ih hrest (tSec + s.durationSeconds) (stepConc tf gc s)
      · refine List.chain'_cons'.mpr ⟨?_, List.chain'_cons'.mpr ⟨?_, hch⟩⟩
        · intro b hb
          rw [List.head?_cons, Option.mem_some_iff] at hb
          subst hb
          rcases eq_or_lt_of_le hd with heq | hlt
          · right
            show (⟨tSec / 60 + 1/60, stepConc tf gc s⟩ : ConcPoint) =
              ⟨(tSec + s.durationSeconds) / 60, stepConc tf gc s⟩
            congr 1
            rw [← heq]
            ring
          · left
            show tSec / 60 + 1/60 < (tSec + s.durationSeconds) / 60
            linarith
        · intro b hb
          rw [hhead, Option.mem_some_iff] at hb
          subst hb
          left
          show tSec / 60 < tSec / 60 + 1/60
          linarith
      · rfl

lemma dedupAux_noDup : ∀ (l : List ConcPoint) (prev : ConcPoint),
    List.Chain' (fun a b => ¬(a.time_min = b.time_min ∧ a.conc = b.conc))
      (prev :: dedupAux prev l) := by
  intro l
  induction l with
  | nil => exact fun _ => List.chain'_singleton _
  | cons y ys ih =>
    intro prev
    by_cases hc : y.time_min = prev.time_min ∧ y.conc = prev.conc
    · rw [dedupAux, if_pos hc]
      have hy : y = prev := by
        cases y; cases prev
        simp only at hc
        simp [hc.1, hc.2]
      rw [← hy]
      exact ih y
    · rw [dedupAux, if_neg hc]
      refine List.chain'_cons.mpr ⟨?_, ih y⟩
      intro hcontra
      exact hc ⟨hcontra.1.symm, hcontra.2.symm⟩

lemma dedupAux_strict : ∀ (l : List ConcPoint) (prev : ConcPoint),
    List.Chain' (fun a b => a.time_min < b.time_min ∨ a = b) (prev :: l) →
    List.Chain' (fun a b => a.time_min < b.time_min) (prev :: dedupAux prev l) := by
  intro l
  induction l with
  | nil => exact fun _ _ => List.chain'_singleton _
  | cons y ys ih =>
    intro prev hch
    rcases List.chain'_cons.mp hch with ⟨hpy, htail⟩
    by_cases hc : y.time_min = prev.time_min ∧ y.conc = prev.conc
    · rw [dedupAux, if_pos hc]
      have hy : y = prev := by
        cases y; cases prev
        simp only at hc
        simp [hc.1, hc.2]
      rw [← hy]
      exact ih y htail
    · rw [dedupAux, if_neg hc]
      refine List.chain'_cons.mpr ⟨?_, ih y htail⟩
      rcases hpy with hlt | heq
      · exact hlt
      · exact absurd ⟨congrArg ConcPoint.time_min heq.symm, congrArg ConcPoint.conc heq.symm⟩ hc

lemma ensure_id (xs : List ConcPoint) :
    ensureStartsAtZero (⟨0, 0⟩ :: xs) = ⟨0, 0⟩ :: xs := by
  simp [ensureStartsAtZero]

lemma calc_cons_structure (s : FlowStep) (rest : List FlowStep) (config : Option Config) :
    ∃ l, calculateGasConcVsTime (s :: rest) config = ⟨0, 0⟩ :: dedupAux ⟨0, 0⟩ l
      ∧ (⟨0, 0⟩ :: l) =
        (buildLoop (match config with
          | some c => c.totalFlowrate.getD 500
          | none => 500)
          (match config with
          | some c => c.gasConcCyl2.getD 0
          | none => 0) (s :: rest) 0 0 [⟨0, 0⟩]).reverse := by
  obtain ⟨pre, hpre⟩ := buildLoop_sub _ _ (s :: rest) 0 0 [⟨0, 0⟩]
  refine ⟨pre.reverse, ?_, ?_⟩
  · show ensureStartsAtZero (dedupProfile _) = _
    rw [hpre, List.reverse_append]
    show ensureStartsAtZero (dedupProfile (⟨0, 0⟩ :: pre.reverse)) = _
    rw [dedupProfile, ensure_id]
  · rw [hpre, List.reverse_append]
    rfl

lemma calc_headZero (steps : List FlowStep) (config : Option Config) :
    (calculateGasConcVsTime steps config).head? = some ⟨0, 0⟩ := by
  cases steps with
  | nil => rfl
  | cons s rest =>
    obtain ⟨l, hl, -⟩ := calc_cons_structure s rest config
    rw [hl]
    rfl

lemma calc_noDup (steps : List FlowStep) (config : Option Config) :
    noConsecDup (calculateGasConcVsTime steps config) := by
  cases steps with
  | nil => exact List.chain'_singleton _
  | cons s rest =>
    obtain ⟨l, hl, -⟩ := calc_cons_structure s rest config
    rw [noConsecDup, hl]
    exact dedupAux_noDup l ⟨0, 0⟩

lemma calc_strict (steps : List FlowStep) (config : Option Config)
    (hd : ∀ s ∈ steps, 1 ≤ s.durationSeconds) :
    timesStrict (calculateGasConcVsTime steps config) := by
  cases steps with
  | nil => exact List.chain'_singleton _
  | cons s rest =>
    obtain ⟨l, hl, hrev⟩ := calc_cons_structure s rest config
    rw [timesStrict, hl]
    apply dedupAux_strict
    rw [hrev]
    refine List.chain'_reverse.mpr ?_
    apply buildLoop_chain _ _ (s :: rest) hd 0 0 [⟨0, 0⟩] (List.chain'_singleton _)
    norm_num

/-! ### Lemmas about the event scanner -/

lemma identifyStep_inv (st : List ExposureEvent × Option ExposureEvent)
    (point : ConcPoint) (h : ∀ e ∈ st.1, e.startTime < e.endTime) :
    ∀ e ∈ (identifyStep st point).1, e.startTime < e.endTime := by
  rcases st with ⟨events, active⟩
  cases active with
  | none =>
    simp only [identifyStep]
    split <;> exact h
  | some ae =>
    simp only [identifyStep]
    split
    · exact h
    · split
      · split <;>
        · intro e he
          have he' : e ∈ (if ae.startTime < ae.endTime then events ++ [ae] else events) := he
          by_cases hdur : ae.startTime < ae.endTime
          · rw [if_pos hdur] at he'
            rcases List.mem_append.mp he' with he'' | he''
            · exact h e he''
            · rcases List.mem_singleton.mp he'' with rfl
              exact hdur
          · rw [if_neg hdur] at he'
            exact h e he'
      · exact h

lemma foldl_identifyStep_inv (l : List ConcPoint) :
    ∀ st : List ExposureEvent × Option ExposureEvent,
      (∀ e ∈ st.1, e.startTime < e.endTime) →
      ∀ e ∈ (l.foldl identifyStep st).1, e.startTime < e.endTime := by
  induction l with
  | nil => exact fun _ h => h
  | cons p rest ih => exact fun st h => ih (identifyStep st p) (identifyStep_inv st p h)

/-! ### Lemmas about the sensor-file processing -/

lemma mkReading_time_none (row : RawRow) : (mkReading none row).time_min = none := by
  cases row with
  | short => rfl
  | full ts imp ph => cases ts <;> rfl

lemma finalize_blank (iref : Option ℚ) (profile : List ConcPoint) (avail : Bool) :
    finalizeReading iref profile avail blankReading = blankReading := by
  cases iref <;> simp [finalizeReading, blankReading]

lemma finalize_signal_of_none (profile : List ConcPoint) (avail : Bool)
    (r : SensorReading) : (finalizeReading none profile avail r).signal = none := by
  cases hI : r.impedance <;> simp [finalizeReading, hI]

lemma finalize_signal_eq (iref : Option ℚ) (profile : List ConcPoint) (avail : Bool)
    (t0 : Option ℚ) (raw : RawRow) :
    (finalizeReading iref profile avail (mkReading t0 raw)).signal =
      expectedSignal iref raw := by
  cases raw with
  | short =>
    rw [show mkReading t0 RawRow.short = blankReading from rfl, finalize_blank]
    cases iref <;> rfl
  | full ts v ph =>
    cases iref with
    | none => cases v <;> simp [finalizeReading, mkReading, expectedSignal]
    | some b =>
      cases v with
      | none => simp [finalizeReading, mkReading, expectedSignal]
      | some v =>
        by_cases hb : b = 0
        · simp [finalizeReading, mkReading, expectedSignal, hb]
        · by_cases hs : |(v - b) / b * 100| ≤ 10000
          · simp [finalizeReading, mkReading, expectedSignal, hb, hs, not_lt.mpr hs]
          · simp [finalizeReading, mkReading, expectedSignal, hb, hs, lt_of_not_le hs]

lemma finalize_impedance_eq (iref : Option ℚ) (profile : List ConcPoint) (avail : Bool)
    (t0 : Option ℚ) (raw : RawRow) :
    (finalizeReading iref profile avail (mkReading t0 raw)).impedance =
      expectedImpedance raw := by
  cases raw with
  | short =>
    rw [show mkReading t0 RawRow.short = blankReading from rfl, finalize_blank]
    rfl
  | full ts v ph =>
    cases v with
    | none => cases iref <;> simp [finalizeReading, mkReading, expectedImpedance]
    | some v => cases iref <;> simp [finalizeReading, mkReading, expectedImpedance]

lemma expectedSignal_bound (iref : Option ℚ) (raw : RawRow) (s : ℚ)
    (h : expectedSignal iref raw = some s) : |s| ≤ 10000 := by
  cases raw with
  | short => simp [expectedSignal] at h
  | full ts v ph =>
    cases v with
    | none => simp [expectedSignal] at h
    | some v =>
      cases iref with
      | none => simp [expectedSignal] at h
      | some b =>
        simp only [expectedSignal] at h
        split at h
        · next hcond =>
            rcases Option.some_inj.mp h with rfl
            exact hcond.2
        · exact absurd h (by simp)

/-! ### Claim theorems -/

/-- Claim C1, counterexample: on the profile `[(0,0),(5,20),(10,0)]` the
extractor returns *no* events, not the single event
`{startTime 5, endTime 10, concentration 20}` the claim asserts: the point
`(5,20)` opens an event that is still zero-duration when the concentration
change at `(10,0)` closes it, and zero-duration events are suppressed. -/
theorem c1_counterexample :
    identifyGasExposureEvents [⟨0, 0⟩, ⟨5, ((20:ℚ) : Conc)⟩, ⟨10, 0⟩] = ([] : List ExposureEvent)
    ∧ identifyGasExposureEvents [⟨0, 0⟩, ⟨5, ((20:ℚ) : Conc)⟩, ⟨10, 0⟩] ≠
        [⟨5, ((20:ℚ) : Conc), 10⟩] :=
  ⟨by decide, by decide⟩

/-- Claim C1, amended: for the input profile `[(0,0),(5,20),(10,0)]`,
`identifyGasExposureEvents` returns no events (the nonzero sample at time 5
is never extended, so its event has zero duration and is dropped). -/
theorem c1_amended :
    identifyGasExposureEvents [⟨0, 0⟩, ⟨5, ((20:ℚ) : Conc)⟩, ⟨10, 0⟩] =
      ([] : List ExposureEvent) := by
  decide

/-- Claim C3: on a time-ordered profile, `interpolateGasConcentration` agrees
with the previous-value-hold reference sampler `specSampler` (sentinel for a
sentinel query or empty profile; first point's concentration before the first
point; otherwise the concentration of the last point whose time is ≤ `t`). -/
theorem c3_sampler_matches_spec (profile : List ConcPoint) (t? : Option ℚ)
    (h : List.Pairwise (fun a b => a.time_min ≤ b.time_min) profile) :
    interpolateGasConcentration profile t? = specSampler profile t? := by
  cases t? with
  | none => rfl
  | some t =>
    cases profile with
    | nil => rfl
    | cons p0 rest =>
      simp only [interpolateGasConcentration, specSampler]
      by_cases hlt : t < p0.time_min
      · rw [if_pos hlt, if_pos hlt]
      · rw [if_neg hlt, if_neg hlt, interpLoop_filter (p0 :: rest) p0.conc t h]
        have hp0 : p0.time_min ≤ t := not_lt.mp hlt
        have hmem : p0 ∈ (p0 :: rest).filter (fun p => decide (p.time_min ≤ t)) :=
          List.mem_filter.mpr ⟨List.mem_cons_self p0 rest, by simpa using hp0⟩
        cases hg : ((p0 :: rest).filter (fun p => decide (p.time_min ≤ t))).getLast? with
        | none =>
          have hsome := List.getLast?_isSome.mpr (List.ne_nil_of_mem hmem)
          rw [hg] at hsome
          exact absurd hsome (by simp)
        | some z => rfl

/-- Witness for C3 at a concrete sorted profile and query time. -/
theorem c3_witness :
    interpolateGasConcentration [⟨0, 0⟩, ⟨5, ((20:ℚ) : Conc)⟩] (some 7) =
      specSampler [⟨0, 0⟩, ⟨5, ((20:ℚ) : Conc)⟩] (some 7) :=
  c3_sampler_matches_spec _ _ (by norm_num [List.pairwise_cons])

/-- Claim C9: every event emitted by `identifyGasExposureEvents`, on any
input profile whatsoever, satisfies `startTime < endTime`; zero-duration
events are never emitted. -/
theorem c9_no_zero_duration_events (profile : List ConcPoint) (e : ExposureEvent)
    (he : e ∈ identifyGasExposureEvents profile) : e.startTime < e.endTime := by
  cases profile with
  | nil => cases he
  | cons p rest =>
    simp only [identifyGasExposureEvents] at he
    have hfold := foldl_identifyStep_inv (p :: rest) ([], none) (by intro e h; cases h)
    revert he
    cases hsnd : ((p :: rest).foldl identifyStep ([], none)).2 with
    | none => exact fun he => hfold e he
    | some ae =>
      intro he
      dsimp only at he
      by_cases hdur : ae.startTime < ae.endTime
      · rw [if_pos hdur] at he
        split at he
        · exact hfold e he
        · rcases List.mem_append.mp he with he' | he'
          · exact hfold e he'
          · rcases List.mem_singleton.mp he' with rfl
            exact hdur
      · rw [if_neg hdur] at he
        exact hfold e he

/-- Witness for C9: the single event extracted from
`[(0,0),(1,5),(2,5),(3,0)]` has `startTime 1 < endTime 2`. -/
theorem c9_witness : (1 : ℚ) < 2 :=
  c9_no_zero_duration_events
    [⟨0, 0⟩, ⟨1, ((5:ℚ) : Conc)⟩, ⟨2, ((5:ℚ) : Conc)⟩, ⟨3, 0⟩]
    ⟨1, ((5:ℚ) : Conc), 2⟩ (by decide)

/-- Claim C10: `calculateGasConcVsTime` silently substitutes the default
total flowrate 500 when the configuration object is absent or its
`totalFlowrate` field is not a number, and the default cylinder
concentration 0 when `gasConcCyl2` is absent or not a number; no error is
raised (the function is total). -/
theorem c10_config_defaults (gasFlowData : List FlowStep) (tf gc : Option ℚ) :
    calculateGasConcVsTime gasFlowData none =
      calculateGasConcVsTime gasFlowData (some ⟨some 500, some 0⟩)
    ∧ calculateGasConcVsTime gasFlowData (some ⟨none, gc⟩) =
      calculateGasConcVsTime gasFlowData (some ⟨some 500, gc⟩)
    ∧ calculateGasConcVsTime gasFlowData (some ⟨tf, none⟩) =
      calculateGasConcVsTime gasFlowData (some ⟨tf, some 0⟩) :=
  ⟨rfl, rfl, rfl⟩

/-- Witness for C10 at a concrete schedule: a missing configuration behaves
exactly like the explicit defaults `{totalFlowrate 500, gasConcCyl2 0}`. -/
theorem c10_witness :
    calculateGasConcVsTime [⟨100, 60⟩] none =
      calculateGasConcVsTime [⟨100, 60⟩] (some ⟨some 500, some 0⟩) :=
  (c10_config_defaults [⟨100, 60⟩] (some 3) (some 4)).1

/-- Claim C2, counterexample: a step of duration 0 seconds yields the
profile `[(0,0), (1/60,10), (0,10)]`, whose times are *not* non-decreasing
(the one-second transition point lands after the step's end). -/
theorem c2_counterexample :
    calculateGasConcVsTime [⟨100, 0⟩] (some ⟨some 500, some 50⟩) =
      [⟨0, 0⟩, ⟨1/60, ((10:ℚ) : Conc)⟩, ⟨0, ((10:ℚ) : Conc)⟩]
    ∧ ¬ timesNonDecr (calculateGasConcVsTime [⟨100, 0⟩] (some ⟨some 500, some 50⟩)) := by
  have heq : calculateGasConcVsTime [⟨100, 0⟩] (some ⟨some 500, some 50⟩) =
      [⟨0, 0⟩, ⟨1/60, ((10:ℚ) : Conc)⟩, ⟨0, ((10:ℚ) : Conc)⟩] := by decide
  refine ⟨heq, ?_⟩
  rw [timesNonDecr, heq]
  intro h
  rcases List.chain'_cons.mp h with ⟨-, h2⟩
  rcases List.chain'_cons.mp h2 with ⟨h3, -⟩
  norm_num at h3

/-- Claim C2, amended: for every FlowStep sequence and configuration the
output of `calculateGasConcVsTime` begins with `(0,0)` and has no two
consecutive points equal in both fields, and — provided every step lasts at
least one second (the width of the modelled transition) — its times are
non-decreasing. -/
theorem c2_amended (steps : List FlowStep) (config : Option Config) :
    (calculateGasConcVsTime steps config).head? = some ⟨0, 0⟩
    ∧ noConsecDup (calculateGasConcVsTime steps config)
    ∧ ((∀ s ∈ steps, 1 ≤ s.durationSeconds) →
        timesNonDecr (calculateGasConcVsTime steps config)) :=
  ⟨calc_headZero steps config, calc_noDup steps config,
    fun hd => (calc_strict steps config hd).imp (fun _ _ h => le_of_lt h)⟩

/-- Witness for C2 at a concrete one-step schedule of duration 60 s. -/
theorem c2_witness :
    (calculateGasConcVsTime [⟨100, 60⟩] (some ⟨some 500, some 50⟩)).head? = some ⟨0, 0⟩
    ∧ noConsecDup (calculateGasConcVsTime [⟨100, 60⟩] (some ⟨some 500, some 50⟩))
    ∧ timesNonDecr (calculateGasConcVsTime [⟨100, 60⟩] (some ⟨some 500, some 50⟩)) :=
  have h := c2_amended [⟨100, 60⟩] (some ⟨some 500, some 50⟩)
  ⟨h.1, h.2.1, h.2.2 (by decide)⟩

/-- Claim C4, counterexample: the profile built from the zero-duration step
schedule `[{flow 100, duration 0}]` contains the point `(0, 10)`, yet
sampling it at time 0 returns 0, not 10. -/
theorem c4_counterexample :
    (⟨0, ((10:ℚ) : Conc)⟩ : ConcPoint) ∈
      calculateGasConcVsTime [⟨100, 0⟩] (some ⟨some 500, some 50⟩)
    ∧ interpolateGasConcentration
        (calculateGasConcVsTime [⟨100, 0⟩] (some ⟨some 500, some 50⟩)) (some 0) =
        some ((0:ℚ) : Conc)
    ∧ ((0:ℚ) : Conc) ≠ ((10:ℚ) : Conc) :=
  ⟨by decide, by decide, by decide⟩

/-- Claim C4, amended: for every profile produced by `calculateGasConcVsTime`
from steps that each last at least one second, and every point `(t, c)` of
that profile, sampling the profile at `t` returns `c`. -/
theorem c4_amended (steps : List FlowStep) (config : Option Config)
    (hd : ∀ s ∈ steps, 1 ≤ s.durationSeconds) (p : ConcPoint)
    (hp : p ∈ calculateGasConcVsTime steps config) :
    interpolateGasConcentration (calculateGasConcVsTime steps config)
      (some p.time_min) = some p.conc :=
  roundTrip_of_timesStrict _ (calc_strict steps config hd) p hp

/-- Witness for C4 at the point `(1, 10)` of a concrete profile. -/
theorem c4_witness :
    interpolateGasConcentration
      (calculateGasConcVsTime [⟨100, 60⟩] (some ⟨some 500, some 50⟩))
      (some (1 : ℚ)) = some ((10:ℚ) : Conc) :=
  c4_amended [⟨100, 60⟩] (some ⟨some 500, some 50⟩) (by decide)
    ⟨1, ((10:ℚ) : Conc)⟩ (by decide)

/-- Claim C5: for every processed sensor file, the code's baseline choice
(last row with a defined `time_min` at or before the reference time, else
the first row when its `time_min` is defined) coincides with the spec's
description (…else the *first row with a defined `time_min`*), and when the
chosen row's impedance is the sentinel every processed row's signal is the
sentinel. -/
theorem c5_baseline_selection (rows rest : List RawRow) (ts imp ph : Option ℚ)
    (refTimeMinutes : ℚ) (gasConcProfile : List ConcPoint) (gasConcAvailable : Bool)
    (hrows : rows = RawRow.full ts imp ph :: rest) :
    chosenBaselineRow (mkProcessedTable rows) refTimeMinutes =
      specBaselineRow (mkProcessedTable rows) refTimeMinutes
    ∧ (impRef (mkProcessedTable rows) refTimeMinutes = none →
        ∀ table, processFile rows refTimeMinutes gasConcProfile gasConcAvailable = some table →
          ∀ r ∈ table, r.signal = none) := by
  subst hrows
  constructor
  · cases hg : ((mkProcessedTable (RawRow.full ts imp ph :: rest)).filter
        (isSuitableRef refTimeMinutes)).getLast? with
    | some q => rw [chosenBaselineRow.eq_def, specBaselineRow.eq_def, hg]
    | none =>
      rw [chosenBaselineRow.eq_def, specBaselineRow.eq_def, hg]
      have htable : mkProcessedTable (RawRow.full ts imp ph :: rest) =
          mkReading ts (RawRow.full ts imp ph) :: rest.map (mkReading ts) := rfl
      cases ts with
      | none =>
        rw [htable]
        have hnone : ∀ r ∈ mkReading none (RawRow.full none imp ph) ::
            rest.map (mkReading none), r.time_min = none := by
          intro r hr
          rcases List.mem_cons.mp hr with rfl | hr
          · exact mkReading_time_none _
          · rcases List.mem_map.mp hr with ⟨row, -, rfl⟩
            exact mkReading_time_none row
        rw [List.find?_eq_none.mpr (fun x hx => by simp [hnone x hx])]
        simp [mkReading_time_none]
      | some a =>
        rw [htable]
        have hdef : (mkReading (some a) (RawRow.full (some a) imp ph)).time_min =
            some ((a - a) / 1000 / 60) := rfl
        rw [List.find?_cons_of_pos _ (by simp [hdef])]
        simp [hdef]
  · intro h0 table htab r hr
    simp only [processFile] at htab
    rcases Option.some_inj.mp htab with rfl
    rcases List.mem_map.mp hr with ⟨r', -, rfl⟩
    rw [h0]
    exact finalize_signal_of_none _ _ r'

/-- Witness for C5 at a concrete single-row file. -/
theorem c5_witness :
    chosenBaselineRow (mkProcessedTable [RawRow.full (some 0) (some 5) none]) 0 =
      specBaselineRow (mkProcessedTable [RawRow.full (some 0) (some 5) none]) 0
    ∧ (impRef (mkProcessedTable [RawRow.full (some 0) (some 5) none]) 0 = none →
        ∀ table, processFile [RawRow.full (some 0) (some 5) none] 0 [] false = some table →
          ∀ r ∈ table, r.signal = none) :=
  c5_baseline_selection [RawRow.full (some 0) (some 5) none] [] (some 0) (some 5) none
    0 [] false rfl

/-- Claim C6, counterexample: a row whose percentage signal computes to
29900 (impedance 300 against baseline 1 — both defined, baseline nonzero)
ends with the sentinel, because `|signal| > 1e4` is suppressed; the claim's
"otherwise undefined" clause is therefore not exhaustive as stated. -/
theorem c6_counterexample :
    ((processFile [RawRow.full (some 0) (some 1) none,
        RawRow.full (some 60000) (some 300) none] 0 [] false).getD []).map
      SensorReading.signal = [some 0, none]
    ∧ ((300 - 1 : ℚ) / 1 * 100 = 29900)
    ∧ (none : Option ℚ) ≠ some 29900 :=
  ⟨by decide, by decide, by decide⟩

/-- Claim C6, amended: for every processed row, the final signal equals
`(impedance − baseline)/baseline × 100` exactly when the row's parsed
impedance and the baseline are defined, the baseline is nonzero, *and* the
formula's absolute value is at most `1e4` (the outlier filter); otherwise it
is the sentinel.  This still yields signal 50 at time 2 in the scenario with
impedances `[100,100,150,100]` at minutes `[0,1,2,3]` and reference time
1.5 (see the witness). -/
theorem c6_signal_formula (rows : List RawRow) (refTimeMinutes : ℚ)
    (gasConcProfile : List ConcPoint) (gasConcAvailable : Bool)
    (table : List SensorReading) (i : ℕ) (r : SensorReading) (raw : RawRow)
    (h1 : processFile rows refTimeMinutes gasConcProfile gasConcAvailable = some table)
    (h2 : table.get? i = some r) (h3 : rows.get? i = some raw) :
    r.signal = expectedSignal (impRef (mkProcessedTable rows) refTimeMinutes) raw := by
  cases rows with
  | nil => cases h1
  | cons r0 rest =>
    cases r0 with
    | short => cases h1
    | full ts imp ph =>
      simp only [processFile] at h1
      rcases Option.some_inj.mp h1 with rfl
      rw [List.get?_map] at h2
      rw [show mkProcessedTable (RawRow.full ts imp ph :: rest) =
        (RawRow.full ts imp ph :: rest).map
          (mkReading (fileT0 (RawRow.full ts imp ph :: rest))) from rfl,
        List.get?_map, h3] at h2
      rcases Option.some_inj.mp h2 with rfl
      exact finalize_signal_eq _ _ _ _ raw

/-- Witness for C6: the spec scenario (impedances `[100,100,150,100]` at
minutes `[0,1,2,3]`, reference time 1.5) yields baseline 100 and signal 50
at time 2. -/
theorem c6_witness :
    ∃ r, ((processFile [RawRow.full (some 0) (some 100) none,
        RawRow.full (some 60000) (some 100) none,
        RawRow.full (some 120000) (some 150) none,
        RawRow.full (some 180000) (some 100) none] (3/2) [] false).getD []).get? 2 =
          some r
      ∧ r.signal = some 50 := by
  refine ⟨⟨some 120, some 2, some 150, none, some 50, none⟩, by decide, ?_⟩
  have h := c6_signal_formula
    [RawRow.full (some 0) (some 100) none, RawRow.full (some 60000) (some 100) none,
     RawRow.full (some 120000) (some 150) none, RawRow.full (some 180000) (some 100) none]
    (3/2) [] false
    [⟨some 0, some 0, some 100, none, some 0, none⟩,
     ⟨some 60, some 1, some 100, none, some 0, none⟩,
     ⟨some 120, some 2, some 150, none, some 50, none⟩,
     ⟨some 180, some 3, some 100, none, some 0, none⟩]
    2 ⟨some 120, some 2, some 150, none, some 50, none⟩
    (RawRow.full (some 120000) (some 150) none) (by decide) (by decide) (by decide)
  exact h.trans (by decide)

/-- Claim C7, counterexample: a parsed impedance of `-2e12` — magnitude well
above `1e12` — survives the outlier filter unchanged, because the code tests
`impedance > 1e12`, not the magnitude. -/
theorem c7_counterexample :
    ((processFile [RawRow.full (some 0) (some (-2000000000000)) none] 0 [] false).getD
      []).map SensorReading.impedance = [some (-2000000000000)]
    ∧ (1000000000000 : ℚ) < |(-2000000000000 : ℚ)| :=
  ⟨by decide, by decide⟩

/-- Claim C7, amended: for every processed row, an impedance *greater than*
`1e12` is forced to the sentinel (negative values are never suppressed, so
the magnitude clause of the claim fails), and every defined final signal has
absolute value at most `1e4` (a computed signal exceeding that bound is
forced to the sentinel). -/
theorem c7_outlier_suppression (rows : List RawRow) (refTimeMinutes : ℚ)
    (gasConcProfile : List ConcPoint) (gasConcAvailable : Bool)
    (table : List SensorReading) (i : ℕ) (r : SensorReading) (raw : RawRow)
    (h1 : processFile rows refTimeMinutes gasConcProfile gasConcAvailable = some table)
    (h2 : table.get? i = some r) (h3 : rows.get? i = some raw) :
    r.impedance = expectedImpedance raw
    ∧ ∀ s : ℚ, r.signal = some s → |s| ≤ 10000 := by
  cases rows with
  | nil => cases h1
  | cons r0 rest =>
    cases r0 with
    | short => cases h1
    | full ts imp ph =>
      simp only [processFile] at h1
      rcases Option.some_inj.mp h1 with rfl
      rw [List.get?_map] at h2
      rw [show mkProcessedTable (RawRow.full ts imp ph :: rest) =
        (RawRow.full ts imp ph :: rest).map
          (mkReading (fileT0 (RawRow.full ts imp ph :: rest))) from rfl,
        List.get?_map, h3] at h2
      rcases Option.some_inj.mp h2 with rfl
      refine ⟨finalize_impedance_eq _ _ _ _ raw, fun s hs => ?_⟩
      rw [finalize_signal_eq] at hs
      exact expectedSignal_bound _ raw s hs

/-- Witness for C7: an impedance of `2e12` is suppressed to the sentinel,
and the row's signal is defined with absolute value within `1e4`. -/
theorem c7_witness :
    (⟨some 0, some 0, none, none, some 0, none⟩ : SensorReading).impedance =
      expectedImpedance (RawRow.full (some 0) (some 2000000000000) none)
    ∧ ∀ s : ℚ, (⟨some 0, some 0, none, none, some 0, none⟩ : SensorReading).signal =
        some s → |s| ≤ 10000 :=
  c7_outlier_suppression
    [RawRow.full (some 0) (some 2000000000000) none] 0 [] false
    [⟨some 0, some 0, none, none, some 0, none⟩] 0
    ⟨some 0, some 0, none, none, some 0, none⟩
    (RawRow.full (some 0) (some 2000000000000) none)
    (by decide) (by decide) (by decide)

/-- Claim C8, counterexample: when the *first* row is short the whole file
is skipped (the per-file column check), so such a row is not recorded as an
all-sentinel reading and processing of the file does not continue. -/
theorem c8_counterexample :
    processFile [RawRow.short, RawRow.full (some 0) (some 1) (some 2)] 0 [] false = none
    ∧ processAllTimeSeriesFiles [[RawRow.short, RawRow.full (some 0) (some 1) (some 2)]]
        0 [] false = [] :=
  ⟨by decide, by decide⟩

/-- Claim C8, amended: when the file's *first* row has enough columns, every
*later* short row is recorded as an all-sentinel reading and processing
continues — the file is kept and its table has one reading per input row. -/
theorem c8_short_row_recovery (rows rest : List RawRow) (ts imp ph : Option ℚ)
    (refTimeMinutes : ℚ) (gasConcProfile : List ConcPoint) (gasConcAvailable : Bool)
    (i : ℕ) (hrows : rows = RawRow.full ts imp ph :: rest)
    (hi : rows.get? i = some RawRow.short) :
    ∃ table, processFile rows refTimeMinutes gasConcProfile gasConcAvailable = some table
      ∧ table.length = rows.length
      ∧ table.get? i = some blankReading := by
  subst hrows
  refine ⟨_, rfl, ?_, ?_⟩
  · simp [mkProcessedTable]
  · rw [List.get?_map]
    rw [show mkProcessedTable (RawRow.full ts imp ph :: rest) =
      (RawRow.full ts imp ph :: rest).map
        (mkReading (fileT0 (RawRow.full ts imp ph :: rest))) from rfl,
      List.get?_map, hi]
    simp [mkReading, finalize_blank]

/-- Witness for C8: a file whose second row is short is processed into a
two-reading table whose second reading is all-sentinel. -/
theorem c8_witness :
    ∃ table, processFile [RawRow.full (some 0) (some 1) (some 2), RawRow.short]
        0 [] false = some table
      ∧ table.length = ([RawRow.full (some 0) (some 1) (some 2), RawRow.short] :
          List RawRow).length
      ∧ table.get? 1 = some blankReading :=
  c8_short_row_recovery [RawRow.full (some 0) (some 1) (some 2), RawRow.short]
    [RawRow.short] (some 0) (some 1) (some 2) 0 [] false 1 rfl (by decide)

end SensorDataAnalyzer

